import Mathlib

/-!
Verification development for the YouTube Summarizer Chrome extension
(`chrome_extension/background.js` and `chrome_extension/popup.js`).

The background service worker keeps two in-memory maps
(`activeTasks : videoId -> task`, `summaryCache : videoId -> cache entry`),
a per-video capped status log in `chrome.storage.local`, and broadcasts
status updates over two channels (`chrome.runtime.sendMessage` and
`chrome.tabs.sendMessage`).  JavaScript `Map`s are embedded as association
lists with unique-key update/erase operations; `Date.now()` timestamps are
explicit `Nat` parameters; the single-threaded event loop is embedded as a
time-ordered list of events folded over the state.
-/

namespace YTS

/-- Pipeline stage strings `'downloading' | 'transcribing' | 'summarizing'
| 'completed'` stored in `activeTasks` entries by `background.js`.  A failed
pipeline never stores a status: the code deletes the task instead. -/
inductive TaskStatus
  | downloading
  | transcribing
  | summarizing
  | completed
deriving DecidableEq, Repr

/-- String value of a task status, as compared against string literals in
`popup.js` (`taskStatus.status === 'completed'` etc.). -/
def statusStr : TaskStatus → String
  | .downloading => "downloading"
  | .transcribing => "transcribing"
  | .summarizing => "summarizing"
  | .completed => "completed"

/-- One `activeTasks` entry: `{ status, progress, startTime, summary? }`
(`summary` is only attached on completion, background.js line 571-576). -/
structure Task where
  status : TaskStatus
  progress : Nat
  startTime : Nat
  summary : Option String := none
deriving DecidableEq, Repr

/-- One `summaryCache` entry: `{ summary, timestamp, title }`
(background.js lines 557-561). -/
structure CacheEntry where
  summary : String
  timestamp : Nat
  title : String
deriving DecidableEq, Repr

/-- One status-log entry `{ timestamp, status, time }` (background.js lines
688-692).  The display string `timestamp` is derived from `time` by
`toLocaleTimeString()`; we keep the numeric `time` and the message. -/
structure LogEntry where
  status : String
  time : Nat
deriving DecidableEq, Repr

/-- A message sent to observers over `chrome.runtime.sendMessage` or
`chrome.tabs.sendMessage`. -/
inductive BCast
  | statusUpdate (videoId : String) (status : String)
  | summaryReady (videoId : String) (summary : String)
deriving DecidableEq, Repr

/-- A browser tab as seen by `chrome.tabs.query({})`: an id and an
optional URL (background.js line 728 checks `tab.url &&
tab.url.includes(...)`). -/
structure Tab where
  id : Nat
  url : Option String
deriving DecidableEq, Repr

/-- The runtime environment outside the service worker: the open tabs and
whether a listener is present on each delivery channel.  A `sendMessage`
with no listener rejects; the code swallows that with `.catch`. -/
structure Env where
  tabs : List Tab
  runtimeListener : Bool
  tabListener : Nat → Bool

/-- Video info objects passed with the `summarizeVideo` message.  `videoId`
is `none` when the field is absent; the empty string is falsy in the
JavaScript guard `!videoInfo.videoId`. -/
structure VideoInfo where
  videoId : Option String
  title : String
deriving DecidableEq, Repr

/-- The response object passed to `sendResponse` by
`handleVideoSummarization`; absent JSON fields are `none` / `false`. -/
structure SubmitResponse where
  success : Bool
  error : Option String := none
  summary : Option String := none
  cached : Bool := false
  processing : Bool := false
  message : Option String := none
deriving DecidableEq, Repr

/-- Observable state of the background service worker: the two in-memory
maps, the per-video status logs held in `chrome.storage.local`
(`statusLog_<id>` keys), the stored result/error records
(`summaryResult_<id>` / `errorResult_<id>`), and the histories of messages
attempted and actually delivered on each channel. -/
structure BgState where
  activeTasks : List (String × Task)
  summaryCache : List (String × CacheEntry)
  statusLogs : List (String × List LogEntry)
  storedResults : List (String × String)
  storedErrors : List (String × String)
  runtimeSent : List BCast
  runtimeDelivered : List BCast
  tabSent : List (Nat × BCast)
  tabDelivered : List (Nat × BCast)
deriving DecidableEq, Repr

/-- The empty worker state (fresh service worker, nothing cached). -/
def initState : BgState :=
  { activeTasks := [], summaryCache := [], statusLogs := [],
    storedResults := [], storedErrors := [],
    runtimeSent := [], runtimeDelivered := [], tabSent := [], tabDelivered := [] }

/-! ### Association lists embedding JavaScript `Map`s -/

/-- Embedding of `Map.get k` / `Map.has k`: first (= only) binding of `k`. -/
def lookupKey {α : Type} : List (String × α) → String → Option α
  | [], _ => none
  | (k', v) :: t, k => if k' = k then some v else lookupKey t k

/-- Embedding of `Map.set k v`: replace the binding in place, or append a new one. -/
def setEntry {α : Type} : List (String × α) → String → α → List (String × α)
  | [], k, v => [(k, v)]
  | (k', v') :: t, k, v =>
      if k' = k then (k, v) :: t else (k', v') :: setEntry t k v

/-- Embedding of `Map.delete k`: remove the binding of `k`. -/
def eraseEntry {α : Type} (l : List (String × α)) (k : String) : List (String × α) :=
  l.filter (fun e => !(decide (e.1 = k)))

/-- Number of bindings of key `k` (a well-formed map has at most one). -/
def countKey {α : Type} (l : List (String × α)) (k : String) : Nat :=
  (l.filter (fun e => decide (e.1 = k))).length

theorem lookupKey_setEntry_self {α : Type} (l : List (String × α)) (k : String) (v : α) :
    lookupKey (setEntry l k v) k = some v := by
  induction l with
  | nil => simp [lookupKey, setEntry]
  | cons hd t ih =>
      by_cases h : hd.1 = k
      · simp [setEntry, lookupKey, h]
      · simp [setEntry, lookupKey, h, ih]

theorem lookupKey_setEntry_ne {α : Type} (l : List (String × α)) (k k' : String) (v : α)
    (h : k' ≠ k) : lookupKey (setEntry l k v) k' = lookupKey l k' := by
  have h' : k ≠ k' := Ne.symm h
  induction l with
  | nil => simp [lookupKey, setEntry, h']
  | cons hd t ih =>
      by_cases hk : hd.1 = k
      · simp [setEntry, lookupKey, hk, h']
      · simp [setEntry, lookupKey, hk, ih]

theorem lookupKey_eraseEntry_self {α : Type} (l : List (String × α)) (k : String) :
    lookupKey (eraseEntry l k) k = none := by
  induction l with
  | nil => simp [lookupKey, eraseEntry]
  | cons hd t ih =>
      by_cases h : hd.1 = k
      · simpa [eraseEntry, h] using ih
      · simpa [eraseEntry, lookupKey, h] using ih

theorem lookupKey_eq_none_iff {α : Type} (l : List (String × α)) (k : String) :
    lookupKey l k = none ↔ ∀ e ∈ l, e.1 ≠ k := by
  induction l with
  | nil => simp [lookupKey]
  | cons hd t ih =>
      by_cases h : hd.1 = k
      · simp [lookupKey, h]
      · simp [lookupKey, h, ih]

theorem setEntry_of_lookup_none {α : Type} (l : List (String × α)) (k : String) (v : α)
    (h : lookupKey l k = none) : setEntry l k v = l ++ [(k, v)] := by
  induction l with
  | nil => simp [setEntry]
  | cons hd t ih =>
      rw [lookupKey] at h
      by_cases hk : hd.1 = k
      · simp [hk] at h
      · simp [hk] at h
        simp [setEntry, hk, ih h]

theorem countKey_eq_zero {α : Type} (l : List (String × α)) (k : String)
    (h : lookupKey l k = none) : countKey l k = 0 := by
  rw [lookupKey_eq_none_iff] at h
  simp only [countKey, List.length_eq_zero, List.filter_eq_nil_iff]
  intro e he
  simpa using h e he

theorem countKey_append {α : Type} (l₁ l₂ : List (String × α)) (k : String) :
    countKey (l₁ ++ l₂) k = countKey l₁ k + countKey l₂ k := by
  simp [countKey, List.filter_append]

/-! ### The capped status log (`addStatusToLog`) -/

/-- Maximum status-log length per video (background.js line 695). -/
def LOG_CAP : Nat := 20

/-- One append to a status log: push the entry, then
`if (logs.length > 20) logs = logs.slice(-20)` (background.js 688-697). -/
def appendLog (logs : List LogEntry) (e : LogEntry) : List LogEntry :=
  let pushed := logs ++ [e]
  if LOG_CAP < pushed.length then pushed.drop (pushed.length - LOG_CAP) else pushed

/-- The status log stored for a video: `result[logKey] || []`. -/
def logFor (s : BgState) (vid : String) : List LogEntry :=
  (lookupKey s.statusLogs vid).getD []

/-- Embedding of `addStatusToLog(videoId, status)` (background.js 678-705): read the
stored log, push `{timestamp, status, time: Date.now()}`, cap at 20, store
back. -/
def addStatusToLog (vid status : String) (now : Nat) (s : BgState) : BgState :=
  { s with statusLogs :=
      setEntry s.statusLogs vid (appendLog (logFor s vid) { status := status, time := now }) }

/-! ### Broadcast channels -/

/-- JavaScript `haystack.includes(needle)`. -/
def jsIncludes (hay needle : String) : Bool :=
  decide (needle.toList <:+: hay.toList)

/-- Whether a tab is showing the given video (background.js line 728:
`tab.url && tab.url.includes('youtube.com/watch?v=' + videoId)`). -/
def tabMatches (vid : String) (tb : Tab) : Bool :=
  match tb.url with
  | none => false
  | some u => jsIncludes u ("youtube.com/watch?v=" ++ vid)

/-- One `chrome.runtime.sendMessage(m).catch(...)` call: the attempt is always
made; delivery happens only when a listener is present; the no-listener
rejection is swallowed, so the result is a plain state either way. -/
def sendRuntime (env : Env) (m : BCast) (s : BgState) : BgState :=
  { s with runtimeSent := s.runtimeSent ++ [m],
           runtimeDelivered :=
             s.runtimeDelivered ++ (if env.runtimeListener then [m] else []) }

/-- The `chrome.tabs.query` fan-out: send `m` to every tab whose URL
shows this video; each per-tab send failure is swallowed by `.catch`. -/
def sendTabs (env : Env) (vid : String) (m : BCast) (s : BgState) : BgState :=
  let matching := env.tabs.filter (tabMatches vid)
  let delivered := matching.filter (fun tb => env.tabListener tb.id)
  { s with
      tabSent := s.tabSent ++ matching.map (fun tb => (tb.id, m)),
      tabDelivered := s.tabDelivered ++ delivered.map (fun tb => (tb.id, m)) }

/-- Embedding of `broadcastStatusUpdate(videoId, status)` (background.js 707-743): append
to the capped status log, then attempt both delivery channels. -/
def broadcastStatusUpdate (env : Env) (vid status : String) (now : Nat) (s : BgState) :
    BgState :=
  sendTabs env vid (.statusUpdate vid status)
    (sendRuntime env (.statusUpdate vid status)
      (addStatusToLog vid status now s))

/-- Embedding of `broadcastSummaryReady(videoId, summary)` (background.js 745-820): store
the result record, then attempt a `summaryReady` and a follow-up
`statusUpdate` on the runtime channel and `summaryReady` to matching tabs.
(The `localStorage` backup copy is merged into `storedResults`.) -/
def broadcastSummaryReady (env : Env) (vid summary : String) (s : BgState) : BgState :=
  sendTabs env vid (.summaryReady vid summary)
    (sendRuntime env (.statusUpdate vid "✅ Summarization successful!")
      (sendRuntime env (.summaryReady vid summary)
        { s with storedResults := setEntry s.storedResults vid summary }))

/-! ### The result cache (`saveCache`) -/

/-- Retention window: 7 days in milliseconds (background.js line 357). -/
def CACHE_TTL_MS : Nat := 7 * 24 * 60 * 60 * 1000

/-- Capacity ceiling: 100 entries (background.js line 365). -/
def CACHE_MAX : Nat := 100

/-- Stable insert for a descending sort by `timestamp`, embedding
`entries.sort((a, b) => b[1].timestamp - a[1].timestamp)` (JavaScript
`Array.prototype.sort` is stable). -/
def insertByTs (e : String × CacheEntry) : List (String × CacheEntry) →
    List (String × CacheEntry)
  | [] => [e]
  | x :: xs =>
      if e.2.timestamp ≤ x.2.timestamp then x :: insertByTs e xs else e :: x :: xs

/-- Stable descending sort by `timestamp`. -/
def sortTsDesc (l : List (String × CacheEntry)) : List (String × CacheEntry) :=
  l.foldl (fun acc e => insertByTs e acc) []

/-- The eviction pass of `saveCache()` (background.js 354-379): drop entries
older than 7 days, then if more than 100 remain keep the 100 most recent by
timestamp. -/
def saveCacheEvict (now : Nat) (cache : List (String × CacheEntry)) :
    List (String × CacheEntry) :=
  let fresh := cache.filter (fun e => !(decide (e.2.timestamp < now - CACHE_TTL_MS)))
  if CACHE_MAX < fresh.length then (sortTsDesc fresh).take CACHE_MAX else fresh

/-! ### `getVideoStatus` (background.js 405-456) -/

/-- The object returned by `getVideoStatus` to a `getTaskStatus` poll. -/
structure StatusResp where
  status : String
  progress : Option Nat := none
  startTime : Option Nat := none
  statusMessage : Option String := none
  summary : Option String := none
  cached : Bool := false
  isActive : Option Bool := none
  timestamp : Option Nat := none
  title : Option String := none
deriving DecidableEq, Repr

/-- The `statusMessage` chosen for an active task (background.js 430-434). -/
def statusMessageFor (st : TaskStatus) : String :=
  if st = .downloading then "📥 Downloading audio..."
  else if st = .transcribing then "🎵 Transcribing audio..."
  else if st = .summarizing then "🤖 Summarizing with Gemini AI..."
  else if st = .completed then "✅ Summarization completed!"
  else "🔄 Processing in background..."

/-- Embedding of `getVideoStatus(videoId)`: cache first, then active task, else idle. -/
def getVideoStatus (s : BgState) (vid : String) : StatusResp :=
  match lookupKey s.summaryCache vid with
  | some c =>
      { status := "completed", summary := some c.summary, cached := true,
        timestamp := some c.timestamp, title := some c.title }
  | none =>
      match lookupKey s.activeTasks vid with
      | some tk =>
          { status := statusStr tk.status, progress := some tk.progress,
            startTime := some tk.startTime,
            statusMessage := some (statusMessageFor tk.status),
            summary := tk.summary, cached := false,
            isActive := some (decide (tk.status ≠ .completed)) }
      | none => { status := "idle", cached := false }

/-! ### Submission (`handleVideoSummarization`, background.js 458-508) -/

/-- Response for a missing or falsy `videoId`. -/
def invalidResponse : SubmitResponse :=
  { success := false, error := some "Invalid video information" }

/-- Response for a cache hit. -/
def cachedResponse (summary : String) : SubmitResponse :=
  { success := true, summary := some summary, cached := true }

/-- Duplicate-rejection response (background.js 485-489). -/
def duplicateResponse : SubmitResponse :=
  { success := false, error := some "Summarization already in progress for this video" }

/-- Acknowledgment that background processing started. -/
def startedResponse : SubmitResponse :=
  { success := true, processing := true,
    message := some "Summarization started in background" }

/-- The synchronous prefix of `processVideoInBackground` (background.js
514-522): mark the task active in state `downloading` and broadcast; this
runs before `handleVideoSummarization` replies (the `fetch` and the
progress timers occur later). -/
def startPipeline (env : Env) (now : Nat) (vid : String) (s : BgState) : BgState :=
  broadcastStatusUpdate env vid "📥 Downloading audio..." now
    { s with activeTasks :=
        setEntry s.activeTasks vid (Task.mk .downloading 20 now none) }

/-- Embedding of `handleVideoSummarization(videoInfo, sendResponse)`: validate the info,
return the cache entry if present, reject a duplicate if a task exists,
else start the pipeline and acknowledge. -/
def handleVideoSummarization (env : Env) (now : Nat) (vi : Option VideoInfo)
    (s : BgState) : SubmitResponse × BgState :=
  match vi with
  | none => (invalidResponse, s)
  | some info =>
      match info.videoId with
      | none => (invalidResponse, s)
      | some vid =>
          if vid = "" then (invalidResponse, s)
          else
            match lookupKey s.summaryCache vid with
            | some c => (cachedResponse c.summary, s)
            | none =>
                if (lookupKey s.activeTasks vid).isSome then (duplicateResponse, s)
                else (startedResponse, startPipeline env now vid s)

/-! ### The background pipeline (`processVideoInBackground`, background.js 510-635)

One pipeline run for a key is driven by the JavaScript event loop:
the synchronous start, two progress timers registered for +2000ms and
+5000ms, the settlement of the `fetch` (success or the `catch` block), and
— on success only — a deletion timer registered at settlement for +2000ms.
We embed the run as the list of these events tagged with their firing
times (time 0 = pipeline start), sorted by time with a stable sort, which
models the event loop's firing order (ties fire in registration order). -/

/-- Outcome of the `fetch` to `/summarize-sync`: an `ok` response carrying
the summary, or a thrown error (non-ok response, network failure) with its
message, settling at the given time after pipeline start. -/
inductive FetchOutcome
  | ok (t : Nat) (summary : String)
  | err (t : Nat) (msg : String)
deriving DecidableEq, Repr

/-- An event-loop callback belonging to one pipeline run. -/
inductive PEvent
  | startEv
  | timerTranscribing
  | timerSummarizing
  | settleOk (summary : String)
  | settleErr (msg : String)
  | graceDelete
deriving DecidableEq, Repr

/-- Error classification in the `catch` block (background.js 604-614). -/
def classifyError (msg : String) : String :=
  if jsIncludes msg "Failed to fetch" then "Connection failed. Please try again."
  else if jsIncludes msg "API key" then
    "Gemini API connection failed. Please check your .env file."
  else if jsIncludes msg "403" then
    "YouTube temporarily blocked the request. Please try again."
  else "Processing failed: " ++ msg

/-- Apply one event-loop callback of the pipeline for video `vid` with
display title `title`; `te.1` is the firing time (used for `Date.now()`). -/
def applyEvent (env : Env) (vid title : String) (s : BgState) (te : Nat × PEvent) :
    BgState :=
  match te.2 with
  | .startEv =>
      -- background.js 514-522: mark the task active, broadcast.
      broadcastStatusUpdate env vid "📥 Downloading audio..." te.1
        { s with activeTasks :=
            setEntry s.activeTasks vid (Task.mk .downloading 20 te.1 none) }
  | .timerTranscribing =>
      -- background.js 525-530: `if (activeTasks.has(videoId))` then spread-update.
      match lookupKey s.activeTasks vid with
      | some tk =>
          broadcastStatusUpdate env vid "🎵 Transcribing audio..." te.1
            { s with activeTasks :=
                setEntry s.activeTasks vid { tk with status := .transcribing, progress := 60 } }
      | none => s
  | .timerSummarizing =>
      -- background.js 532-537.
      match lookupKey s.activeTasks vid with
      | some tk =>
          broadcastStatusUpdate env vid "🤖 Summarizing with Gemini AI..." te.1
            { s with activeTasks :=
                setEntry s.activeTasks vid { tk with status := .summarizing, progress := 85 } }
      | none => s
  | .settleOk summary =>
      -- background.js 551-591: cache the result, run the eviction pass,
      -- mark the task completed (keeping `startTime` via `?.startTime ||
      -- Date.now()`), log, store the result record, broadcast completion.
      let s1 := { s with summaryCache :=
                    setEntry s.summaryCache vid (CacheEntry.mk summary te.1 title) }
      let s2 := { s1 with summaryCache := saveCacheEvict te.1 s1.summaryCache }
      let st := match lookupKey s2.activeTasks vid with
                | some tk => if tk.startTime = 0 then te.1 else tk.startTime
                | none => te.1
      let s3 := { s2 with activeTasks :=
                    setEntry s2.activeTasks vid (Task.mk .completed 100 st (some summary)) }
      let s4 := addStatusToLog vid "✅ Summarization successful!" te.1 s3
      broadcastSummaryReady env vid summary s4
  | .settleErr msg =>
      -- background.js 598-634: delete the task, classify, broadcast the
      -- error (which also logs it), store the error record, and attempt
      -- one more runtime status message.
      let s1 := { s with activeTasks := eraseEntry s.activeTasks vid }
      let emsg := "❌ " ++ classifyError msg
      let s2 := broadcastStatusUpdate env vid emsg te.1 s1
      let s3 := { s2 with storedErrors := setEntry s2.storedErrors vid (classifyError msg) }
      sendRuntime env (.statusUpdate vid emsg) s3
  | .graceDelete =>
      -- background.js 588-591: remove the completed task after the delay.
      { s with activeTasks := eraseEntry s.activeTasks vid }

/-- Stable insertion by firing time: a new callback fires after every
already-registered callback with an earlier-or-equal expiry. -/
def insertTimed (e : Nat × PEvent) : List (Nat × PEvent) → List (Nat × PEvent)
  | [] => [e]
  | x :: xs => if x.1 ≤ e.1 then x :: insertTimed e xs else e :: x :: xs

/-- Stable sort by firing time (insertion in registration order). -/
def sortTimed (l : List (Nat × PEvent)) : List (Nat × PEvent) :=
  l.foldl (fun acc e => insertTimed e acc) []

/-- The callbacks of one pipeline run in registration order: start, the
two progress timers, the fetch settlement, and (success only) the
2-second grace deletion registered at settlement. -/
def registered : FetchOutcome → List (Nat × PEvent)
  | .ok t summary =>
      [(0, .startEv), (2000, .timerTranscribing), (5000, .timerSummarizing),
       (t, .settleOk summary), (t + 2000, .graceDelete)]
  | .err t msg =>
      [(0, .startEv), (2000, .timerTranscribing), (5000, .timerSummarizing),
       (t, .settleErr msg)]

/-- The callbacks of one pipeline run in firing order. -/
def schedule (o : FetchOutcome) : List (Nat × PEvent) :=
  sortTimed (registered o)

/-- The state at time `u`: all callbacks fired at or before `u`, applied in
firing order. -/
def runTo (env : Env) (vid title : String) (o : FetchOutcome) (u : Nat)
    (s : BgState) : BgState :=
  ((schedule o).filter (fun te => decide (te.1 ≤ u))).foldl (applyEvent env vid title) s

/-- The state after the whole run. -/
def runAll (env : Env) (vid title : String) (o : FetchOutcome) (s : BgState) : BgState :=
  (schedule o).foldl (applyEvent env vid title) s

/-- The task status stored for `vid` at time `u` of the run. -/
def statusAt (env : Env) (vid title : String) (o : FetchOutcome) (u : Nat)
    (s : BgState) : Option TaskStatus :=
  (lookupKey (runTo env vid title o u s).activeTasks vid).map Task.status

/-- Every task status observable during the run, in order: before any
callback, then after each callback. -/
def statusTrace (env : Env) (vid title : String) (o : FetchOutcome) (s : BgState) :
    List (Option TaskStatus) :=
  ((schedule o).scanl (applyEvent env vid title) s).map
    (fun st => (lookupKey st.activeTasks vid).map Task.status)

/-- Position of a status in the forward order of the pipeline. -/
def rank : TaskStatus → Nat
  | .downloading => 0
  | .transcribing => 1
  | .summarizing => 2
  | .completed => 3

/-- One observation may follow another: whenever both show a stored task,
the later one is at the same or a later pipeline stage. -/
def forwardStep : Option TaskStatus → Option TaskStatus → Bool
  | some a, some b => rank a ≤ rank b
  | _, _ => true

/-- No backward transition is observable anywhere in the run. -/
abbrev ForwardTrace (env : Env) (vid title : String) (o : FetchOutcome) (s : BgState) :
    Prop :=
  (statusTrace env vid title o s).Pairwise (fun a b => forwardStep a b = true)

/-! ### The popup's reconciliation (`checkVideoStatus`, popup.js 130-291) -/

/-- The UI outcome of one run of `checkVideoStatus`. -/
inductive Rendered
  | cachedResult (summary : String)
  | freshCompleted (summary : String)
  | liveProgress (statusMessage : String) (progress : Nat)
  | processingDefault (statusText : String)
  | idleReady
deriving DecidableEq, Repr

/-- Fallback progress-bar value by status string (popup.js 233-237). -/
def progressDefault (status : String) : Nat :=
  if status = "downloading" then 20
  else if status = "transcribing" then 60
  else if status = "summarizing" then 85
  else 50

/-- Progress-bar value for an active task (popup.js 230-238; `0` is falsy
in `if (taskStatus.progress)`). -/
def progressFor (resp : StatusResp) : Nat :=
  match resp.progress with
  | some p => if p = 0 then progressDefault resp.status else p
  | none => progressDefault resp.status

/-- Status text fallback chain (popup.js 257-260). -/
def defaultStatusText (status : String) : String :=
  if status = "downloading" then "📥 Downloading audio..."
  else if status = "transcribing" then "🎵 Transcribing audio..."
  else if status = "summarizing" then "🤖 Summarizing with Gemini AI..."
  else "🔄 Processing in background..."

/-- Tiers 2-4 of `checkVideoStatus` (popup.js 181-283): poll
`getTaskStatus`; on a non-idle response render completion, live progress,
or the processing default; otherwise render the idle/ready state.  All
`updateProgress` calls here pass `skipLogging = true`, so no state is
written. -/
def checkTaskTier (s : BgState) (vid : String) : Rendered × BgState :=
  let ts := getVideoStatus s vid
  if ts.status ≠ "idle" then
    if ts.status = "completed" ∧ ts.summary.getD "" ≠ "" then
      (.freshCompleted (ts.summary.getD ""), s)
    else if ts.isActive.getD false then
      (.liveProgress (ts.statusMessage.getD "🔄 Processing in background...")
        (progressFor ts), s)
    else (.processingDefault (defaultStatusText ts.status), s)
  else (.idleReady, s)

/-- `checkVideoStatus(videoId)` (popup.js 130-291): query the cache via
`getCachedSummary` and stop on a truthy summary; otherwise fall through to
the task tiers. -/
def checkVideoStatus (s : BgState) (vid : String) : Rendered × BgState :=
  match lookupKey s.summaryCache vid with
  | some c => if c.summary ≠ "" then (.cachedResult c.summary, s) else checkTaskTier s vid
  | none => checkTaskTier s vid

/-! ### Helper lemmas about the capped log -/

theorem appendLog_eq_drop (l : List LogEntry) (e : LogEntry) :
    appendLog l e = (l ++ [e]).drop (l.length + 1 - LOG_CAP) := by
  unfold appendLog
  simp only [List.length_append, List.length_singleton]
  split
  · rfl
  · next h =>
      have h0 : l.length + 1 - LOG_CAP = 0 := by omega
      rw [h0, List.drop_zero]

theorem length_appendLog_le (l : List LogEntry) (e : LogEntry)
    (hl : l.length ≤ LOG_CAP) : (appendLog l e).length ≤ LOG_CAP := by
  rw [appendLog_eq_drop]
  simp only [List.length_drop, List.length_append, List.length_singleton]
  have hcap : (0 : Nat) < LOG_CAP := by simp [LOG_CAP]
  omega

theorem foldl_appendLog (es : List LogEntry) :
    ∀ l : List LogEntry, l.length ≤ LOG_CAP →
      es.foldl appendLog l = (l ++ es).drop (l.length + es.length - LOG_CAP) := by
  induction es with
  | nil =>
      intro l hl
      simp only [List.foldl_nil, List.append_nil, List.length_nil, Nat.add_zero]
      have h0 : l.length - LOG_CAP = 0 := by omega
      rw [h0, List.drop_zero]
  | cons e es ih =>
      intro l hl
      rw [List.foldl_cons, ih _ (length_appendLog_le l e hl), appendLog_eq_drop]
      have hk : l.length + 1 - LOG_CAP ≤ (l ++ [e]).length := by
        simp only [List.length_append, List.length_singleton]; omega
      rw [← List.drop_append_of_le_length hk, List.drop_drop]
      have hassoc : (l ++ [e]) ++ es = l ++ e :: es := by simp
      rw [hassoc]
      congr 1
      simp only [List.length_drop, List.length_append, List.length_singleton,
        List.length_cons, List.length_nil]
      omega

/-- Claim C4: after any sequence of status-log appends for one key, the
stored log never exceeds 20 entries and is exactly the suffix of the most
recent appends, in append order (no gaps, oldest dropped first).  The first
conjunct ties `addStatusToLog` on the worker state to the per-key update
`appendLog`; the rest settles every append sequence from log creation. -/
theorem C4_log_cap (es : List LogEntry) :
    (∀ vid status : String, ∀ now : Nat, ∀ s : BgState,
        logFor (addStatusToLog vid status now s) vid
          = appendLog (logFor s vid) (LogEntry.mk status now))
    ∧ (es.foldl appendLog []).length ≤ LOG_CAP
    ∧ es.foldl appendLog [] = es.drop (es.length - LOG_CAP) := by
  have hmain := foldl_appendLog es [] (by simp)
  simp only [List.nil_append, List.length_nil, Nat.zero_add] at hmain
  refine ⟨?_, ?_, hmain⟩
  · intro vid status now s
    simp [addStatusToLog, logFor, lookupKey_setEntry_self]
  · rw [hmain]
    simp only [List.length_drop]
    have hcap : (0 : Nat) < LOG_CAP := by simp [LOG_CAP]
    omega

/-! ### Claims about submission (`handleVideoSummarization`) -/

/-- Claim C10: a submission whose video info is absent or lacks a `videoId`
is answered with `success: false` and error `'Invalid video information'`,
and the worker state (task registry, cache, status logs) is untouched; no
task is created and no pipeline starts. -/
theorem C10_invalid_info (env : Env) (now : Nat) (s : BgState) (title : String) :
    handleVideoSummarization env now none s = (invalidResponse, s)
    ∧ handleVideoSummarization env now (some (VideoInfo.mk none title)) s
        = (invalidResponse, s)
    ∧ handleVideoSummarization env now (some (VideoInfo.mk (some "") title)) s
        = (invalidResponse, s) := by
  refine ⟨rfl, rfl, ?_⟩
  simp [handleVideoSummarization]

/-- Claim C2: a submission whose key has a cache entry is answered with the
cached summary (`success: true, cached: true`) immediately, and the worker
state — in particular the task registry — is returned unchanged. -/
theorem C2_cache_precedence (env : Env) (now : Nat) (s : BgState)
    (k title : String) (c : CacheEntry) (hk : k ≠ "")
    (hc : lookupKey s.summaryCache k = some c) :
    handleVideoSummarization env now (some (VideoInfo.mk (some k) title)) s
      = (cachedResponse c.summary, s) := by
  simp [handleVideoSummarization, hk, hc]

/-- Witness for C2 at a concrete state with one cached entry. -/
theorem C2_cache_precedence_witness :
    handleVideoSummarization (Env.mk [] false (fun _ => false)) 7
        (some (VideoInfo.mk (some "v") "T"))
        (BgState.mk [] [("v", CacheEntry.mk "sum" 3 "T")] [] [] [] [] [] [] [])
      = (cachedResponse "sum",
         BgState.mk [] [("v", CacheEntry.mk "sum" 3 "T")] [] [] [] [] [] [] []) :=
  C2_cache_precedence (Env.mk [] false (fun _ => false)) 7
    (BgState.mk [] [("v", CacheEntry.mk "sum" 3 "T")] [] [] [] [] [] [] [])
    "v" "T" (CacheEntry.mk "sum" 3 "T") (by decide) (by decide)

/-- Claim C1: with no cache entry and an active (non-terminal) task for the
key, a submission is rejected as a duplicate (`success: false` with the
duplicate error message) and the state is unchanged; moreover, from a fresh
key the first of two back-to-back submissions starts the pipeline and
registers exactly one task, and the second is rejected as a duplicate
without touching the state, so at most one task ever exists per key. -/
theorem C1_at_most_one_task_per_key (env : Env) (now now2 : Nat) (s : BgState)
    (k title : String) (tk : Task) (hk : k ≠ "")
    (hc : lookupKey s.summaryCache k = none)
    (ht : lookupKey s.activeTasks k = some tk) (hnt : tk.status ≠ .completed) :
    handleVideoSummarization env now (some (VideoInfo.mk (some k) title)) s
      = (duplicateResponse, s)
    ∧ ∀ s0 : BgState, lookupKey s0.summaryCache k = none →
        lookupKey s0.activeTasks k = none →
        (handleVideoSummarization env now (some (VideoInfo.mk (some k) title)) s0).1
            = startedResponse
        ∧ countKey (handleVideoSummarization env now
              (some (VideoInfo.mk (some k) title)) s0).2.activeTasks k = 1
        ∧ handleVideoSummarization env now2 (some (VideoInfo.mk (some k) title))
              ((handleVideoSummarization env now
                (some (VideoInfo.mk (some k) title)) s0).2)
            = (duplicateResponse,
               (handleVideoSummarization env now
                 (some (VideoInfo.mk (some k) title)) s0).2) := by
  constructor
  · simp [handleVideoSummarization, hk, hc, ht]
  · intro s0 hc0 ht0
    have hstate : (handleVideoSummarization env now
        (some (VideoInfo.mk (some k) title)) s0).2 = startPipeline env now k s0 := by
      simp [handleVideoSummarization, hk, hc0, ht0]
    have htasks : (startPipeline env now k s0).activeTasks
        = setEntry s0.activeTasks k (Task.mk .downloading 20 now none) := by
      simp [startPipeline, broadcastStatusUpdate, sendTabs, sendRuntime, addStatusToLog]
    have hcache : (startPipeline env now k s0).summaryCache = s0.summaryCache := by
      simp [startPipeline, broadcastStatusUpdate, sendTabs, sendRuntime, addStatusToLog]
    refine ⟨?_, ?_, ?_⟩
    · simp [handleVideoSummarization, hk, hc0, ht0]
    · rw [hstate, htasks, setEntry_of_lookup_none _ _ _ ht0, countKey_append,
        countKey_eq_zero _ _ ht0]
      simp [countKey]
    · rw [hstate]
      have h1 : lookupKey (startPipeline env now k s0).summaryCache k = none := by
        rw [hcache]; exact hc0
      have h2 : lookupKey (startPipeline env now k s0).activeTasks k
          = some (Task.mk .downloading 20 now none) := by
        rw [htasks]; exact lookupKey_setEntry_self _ _ _
      simp [handleVideoSummarization, hk, h1, h2]

/-- Witness for C1: a concrete state with a running task for `"v"`, and the
fresh-key double submission at the empty state. -/
theorem C1_at_most_one_task_per_key_witness :
    handleVideoSummarization (Env.mk [] false (fun _ => false)) 7
        (some (VideoInfo.mk (some "v") "T"))
        (BgState.mk [("v", Task.mk .downloading 20 1 none)] [] [] [] [] [] [] [] [])
      = (duplicateResponse,
         BgState.mk [("v", Task.mk .downloading 20 1 none)] [] [] [] [] [] [] [] [])
    ∧ (handleVideoSummarization (Env.mk [] false (fun _ => false)) 7
        (some (VideoInfo.mk (some "v") "T")) initState).1 = startedResponse := by
  have h := C1_at_most_one_task_per_key (Env.mk [] false (fun _ => false)) 7 8
    (BgState.mk [("v", Task.mk .downloading 20 1 none)] [] [] [] [] [] [] [] [])
    "v" "T" (Task.mk .downloading 20 1 none)
    (by decide) (by decide) (by decide) (by decide)
  exact ⟨h.1, (h.2 initState (by decide) (by decide)).1⟩

/-- Claim C9: `broadcastStatusUpdate` appends the message to the capped
status log and attempts delivery on both channels (the runtime broadcast
and a targeted send to every tab showing the key); the log append and both
attempt lists are the same whatever listeners exist, so a delivery failure
on either channel is swallowed and affects nothing else. -/
theorem C9_broadcast_best_effort (env : Env) (vid status : String) (now : Nat)
    (s : BgState) :
    lookupKey (broadcastStatusUpdate env vid status now s).statusLogs vid
        = some (appendLog (logFor s vid) (LogEntry.mk status now))
    ∧ (broadcastStatusUpdate env vid status now s).runtimeSent
        = s.runtimeSent ++ [BCast.statusUpdate vid status]
    ∧ (broadcastStatusUpdate env vid status now s).tabSent
        = s.tabSent ++ (env.tabs.filter (tabMatches vid)).map
            (fun tb => (tb.id, BCast.statusUpdate vid status))
    ∧ ∀ rl : Bool, ∀ tl : Nat → Bool,
        (broadcastStatusUpdate (Env.mk env.tabs rl tl) vid status now s).statusLogs
            = (broadcastStatusUpdate env vid status now s).statusLogs
        ∧ (broadcastStatusUpdate (Env.mk env.tabs rl tl) vid status now s).runtimeSent
            = (broadcastStatusUpdate env vid status now s).runtimeSent
        ∧ (broadcastStatusUpdate (Env.mk env.tabs rl tl) vid status now s).tabSent
            = (broadcastStatusUpdate env vid status now s).tabSent := by
  refine ⟨?_, ?_, ?_, ?_⟩ <;>
    simp [broadcastStatusUpdate, sendTabs, sendRuntime, addStatusToLog,
      lookupKey_setEntry_self]

/-! ### Claim C8: the reconciliation protocol -/

theorem checkTaskTier_snd (s : BgState) (vid : String) : (checkTaskTier s vid).2 = s := by
  unfold checkTaskTier
  dsimp only
  split_ifs <;> rfl

theorem checkVideoStatus_snd (s : BgState) (vid : String) :
    (checkVideoStatus s vid).2 = s := by
  simp only [checkVideoStatus]
  cases h : lookupKey s.summaryCache vid with
  | none => exact checkTaskTier_snd s vid
  | some c =>
      by_cases hc : c.summary = ""
      · simp [hc, checkTaskTier_snd]
      · simp [hc]

/-- Claim C8: the popup's reconciliation (`checkVideoStatus`) writes nothing
back, so running it twice on an unchanged state renders the same result
both times; and it short-circuits on the first tier that hits: a truthy
cache entry renders the cached result whatever the registry holds; with a
cache miss, an active task renders live progress; a completed task still in
its grace window renders the fresh result; with nothing, the idle state. -/
theorem C8_reconciliation_idempotent (s : BgState) (vid : String) :
    (checkVideoStatus s vid).2 = s
    ∧ checkVideoStatus (checkVideoStatus s vid).2 vid = checkVideoStatus s vid
    ∧ (∀ c : CacheEntry, lookupKey s.summaryCache vid = some c → c.summary ≠ "" →
        (checkVideoStatus s vid).1 = .cachedResult c.summary)
    ∧ (lookupKey s.summaryCache vid = none →
        ∀ tk : Task, lookupKey s.activeTasks vid = some tk → tk.status ≠ .completed →
        (checkVideoStatus s vid).1
          = .liveProgress (statusMessageFor tk.status) (progressFor (getVideoStatus s vid)))
    ∧ (lookupKey s.summaryCache vid = none →
        ∀ tk : Task, lookupKey s.activeTasks vid = some tk → tk.status = .completed →
        tk.summary.getD "" ≠ "" →
        (checkVideoStatus s vid).1 = .freshCompleted (tk.summary.getD ""))
    ∧ (lookupKey s.summaryCache vid = none → lookupKey s.activeTasks vid = none →
        (checkVideoStatus s vid).1 = .idleReady) := by
  refine ⟨checkVideoStatus_snd s vid, by rw [checkVideoStatus_snd], ?_, ?_, ?_, ?_⟩
  · intro c hc hsum
    simp [checkVideoStatus, hc, hsum]
  · intro hc tk ht hnt
    cases htk : tk.status with
    | completed => exact absurd htk hnt
    | downloading =>
        simp [checkVideoStatus, checkTaskTier, getVideoStatus, hc, ht, htk,
          statusStr, statusMessageFor]
    | transcribing =>
        simp [checkVideoStatus, checkTaskTier, getVideoStatus, hc, ht, htk,
          statusStr, statusMessageFor]
    | summarizing =>
        simp [checkVideoStatus, checkTaskTier, getVideoStatus, hc, ht, htk,
          statusStr, statusMessageFor]
  · intro hc tk ht htk hsum
    simp [checkVideoStatus, checkTaskTier, getVideoStatus, hc, ht, htk,
      statusStr, hsum]
  · intro hc ht
    simp [checkVideoStatus, checkTaskTier, getVideoStatus, hc, ht]

/-- Witness for C8: a state whose registry holds a transcribing task for
`"v"`; reconciliation renders live progress and leaves the state alone. -/
theorem C8_reconciliation_idempotent_witness :
    (checkVideoStatus
        (BgState.mk [("v", Task.mk .transcribing 60 1 none)] [] [] [] [] [] [] [] [])
        "v").1
      = Rendered.liveProgress "🎵 Transcribing audio..." 60
    ∧ (checkVideoStatus
        (BgState.mk [("v", Task.mk .transcribing 60 1 none)] [] [] [] [] [] [] [] [])
        "v").2
      = BgState.mk [("v", Task.mk .transcribing 60 1 none)] [] [] [] [] [] [] [] [] := by
  have h := C8_reconciliation_idempotent
    (BgState.mk [("v", Task.mk .transcribing 60 1 none)] [] [] [] [] [] [] [] []) "v"
  refine ⟨?_, h.1⟩
  rw [h.2.2.2.1 (by decide) (Task.mk .transcribing 60 1 none) (by decide) (by decide)]
  decide

/-! ### Claim C3: cache eviction -/

/-- Descending order by `producedAt` timestamp. -/
def SortedDesc (l : List (String × CacheEntry)) : Prop :=
  l.Pairwise (fun a b => b.2.timestamp ≤ a.2.timestamp)

theorem length_insertByTs (e : String × CacheEntry) (l : List (String × CacheEntry)) :
    (insertByTs e l).length = l.length + 1 := by
  induction l with
  | nil => rfl
  | cons x xs ih =>
      unfold insertByTs
      split_ifs <;> simp [ih]

theorem mem_insertByTs (a e : String × CacheEntry) (l : List (String × CacheEntry)) :
    a ∈ insertByTs e l ↔ a = e ∨ a ∈ l := by
  induction l with
  | nil => simp [insertByTs]
  | cons x xs ih =>
      unfold insertByTs
      split_ifs <;> simp [ih] <;> tauto

theorem perm_insertByTs (e : String × CacheEntry) (l : List (String × CacheEntry)) :
    (insertByTs e l).Perm (e :: l) := by
  induction l with
  | nil => exact List.Perm.refl _
  | cons x xs ih =>
      unfold insertByTs
      split_ifs with h
      · exact ((ih.cons x).trans (List.Perm.swap e x xs))
      · exact List.Perm.refl _

theorem perm_sortTsDesc (l : List (String × CacheEntry)) : (sortTsDesc l).Perm l := by
  suffices h : ∀ acc : List (String × CacheEntry),
      (l.foldl (fun acc e => insertByTs e acc) acc).Perm (acc ++ l) by
    simpa using h []
  induction l with
  | nil => intro acc; simp
  | cons e es ih =>
      intro acc
      rw [List.foldl_cons]
      refine (ih (insertByTs e acc)).trans ?_
      refine (List.Perm.append_right es (perm_insertByTs e acc)).trans ?_
      exact List.perm_middle.symm

theorem sortedDesc_insertByTs (e : String × CacheEntry) (l : List (String × CacheEntry))
    (h : SortedDesc l) : SortedDesc (insertByTs e l) := by
  induction l with
  | nil => simp [insertByTs, SortedDesc]
  | cons x xs ih =>
      unfold insertByTs
      split_ifs with hle
      · obtain ⟨hx, hxs⟩ := List.pairwise_cons.1 h
        refine List.pairwise_cons.2 ⟨?_, ih hxs⟩
        intro b hb
        rcases (mem_insertByTs b e xs).1 hb with rfl | hbxs
        · exact hle
        · exact hx b hbxs
      · refine List.pairwise_cons.2 ⟨?_, h⟩
        intro b hb
        have hxe : x.2.timestamp ≤ e.2.timestamp := Nat.le_of_lt (Nat.lt_of_not_le hle)
        rcases List.mem_cons.1 hb with rfl | hbxs
        · exact hxe
        · exact Nat.le_trans ((List.pairwise_cons.1 h).1 b hbxs) hxe

theorem sortedDesc_sortTsDesc (l : List (String × CacheEntry)) :
    SortedDesc (sortTsDesc l) := by
  suffices h : ∀ acc : List (String × CacheEntry), SortedDesc acc →
      SortedDesc (l.foldl (fun acc e => insertByTs e acc) acc) by
    exact h [] (List.Pairwise.nil)
  induction l with
  | nil => intro acc hacc; exact hacc
  | cons e es ih =>
      intro acc hacc
      rw [List.foldl_cons]
      exact ih _ (sortedDesc_insertByTs e acc hacc)

theorem saveCacheEvict_length (now : Nat) (cache : List (String × CacheEntry)) :
    (saveCacheEvict now cache).length ≤ CACHE_MAX := by
  unfold saveCacheEvict
  dsimp only
  split_ifs with h
  · simp [List.length_take]
  · exact Nat.le_of_not_lt h

theorem saveCacheEvict_fresh (now : Nat) (cache : List (String × CacheEntry)) :
    ∀ e ∈ saveCacheEvict now cache, ¬ e.2.timestamp < now - CACHE_TTL_MS := by
  intro e he
  unfold saveCacheEvict at he
  dsimp only at he
  split_ifs at he with h
  · have h1 : e ∈ sortTsDesc (cache.filter
        (fun e => !(decide (e.2.timestamp < now - CACHE_TTL_MS)))) :=
      List.mem_of_mem_take he
    have h2 := (perm_sortTsDesc _).subset h1
    have h3 := (List.mem_filter.1 h2).2
    simpa using h3
  · have h3 := (List.mem_filter.1 he).2
    simpa using h3

/-- One cache write followed by the eviction pass of `saveCache`, as
performed on every successful completion (background.js 563-567) and by
the periodic maintenance timer (background.js 846). -/
structure PutOp where
  key : String
  entry : CacheEntry
  now : Nat
deriving DecidableEq, Repr

/-- Embedding of `summaryCache.set(videoId, cacheEntry); await saveCache()`. -/
def putThenEvict (cache : List (String × CacheEntry)) (op : PutOp) :
    List (String × CacheEntry) :=
  saveCacheEvict op.now (setEntry cache op.key op.entry)

/-- Claim C3: after any sequence of cache puts each followed by the
eviction pass, the cache has at most 100 entries and none older than the
7-day window of the last pass; and when a 101st entry is written over a
full cache of fresh entries, exactly the single oldest-by-timestamp entry
is dropped and the count stays at 100. -/
theorem C3_eviction_bound :
    (∀ (ops : List PutOp) (op : PutOp) (cache : List (String × CacheEntry)),
        ((ops ++ [op]).foldl putThenEvict cache).length ≤ CACHE_MAX
        ∧ ∀ e ∈ (ops ++ [op]).foldl putThenEvict cache,
            ¬ e.2.timestamp < op.now - CACHE_TTL_MS)
    ∧ (∀ (c : List (String × CacheEntry)) (k : String) (v : CacheEntry) (now : Nat)
          (m : String × CacheEntry),
        c.length = CACHE_MAX →
        (c.map Prod.fst).Nodup →
        lookupKey c k = none →
        (∀ e ∈ c, ¬ e.2.timestamp < now - CACHE_TTL_MS) →
        ¬ v.timestamp < now - CACHE_TTL_MS →
        m ∈ c →
        (∀ e ∈ c, e ≠ m → m.2.timestamp < e.2.timestamp) →
        m.2.timestamp < v.timestamp →
        (putThenEvict c (PutOp.mk k v now)).length = CACHE_MAX
        ∧ m ∉ putThenEvict c (PutOp.mk k v now)
        ∧ ∀ e ∈ c ++ [(k, v)], e ≠ m → e ∈ putThenEvict c (PutOp.mk k v now)) := by
  constructor
  · intro ops op cache
    rw [List.foldl_append]
    exact ⟨saveCacheEvict_length _ _, saveCacheEvict_fresh _ _⟩
  · intro c k v now m hlen hkeys hknew hfresh hvfresh hm hmin hmv
    have hset : setEntry c k (PutOp.mk k v now).entry = c ++ [(k, v)] :=
      setEntry_of_lookup_none c k v hknew
    have hfilter : (c ++ [(k, v)]).filter
        (fun e => !(decide (e.2.timestamp < now - CACHE_TTL_MS))) = c ++ [(k, v)] := by
      refine List.filter_eq_self.2 ?_
      intro a ha
      rcases List.mem_append.1 ha with hac | hav
      · simpa using hfresh a hac
      · have : a = (k, v) := by simpa using hav
        subst this
        simpa using hvfresh
    have hlen' : (c ++ [(k, v)]).length = CACHE_MAX + 1 := by
      simp [hlen]
    have hbig : CACHE_MAX < (c ++ [(k, v)]).length := by omega
    have hresult : putThenEvict c (PutOp.mk k v now)
        = (sortTsDesc (c ++ [(k, v)])).take CACHE_MAX := by
      unfold putThenEvict saveCacheEvict
      dsimp only
      rw [hset, hfilter]
      rw [if_pos hbig]
    set l := sortTsDesc (c ++ [(k, v)]) with hl
    have hperm : l.Perm (c ++ [(k, v)]) := perm_sortTsDesc _
    have hsorted : SortedDesc l := sortedDesc_sortTsDesc _
    have hllen : l.length = CACHE_MAX + 1 := by
      rw [hperm.length_eq, hlen']
    have hdlen : (l.drop CACHE_MAX).length = 1 := by
      rw [List.length_drop, hllen]
      omega
    obtain ⟨d, hd⟩ := List.length_eq_one.1 hdlen
    have htd : l.take CACHE_MAX ++ [d] = l := by
      rw [← hd, List.take_append_drop]
    have hcross : ∀ a ∈ l.take CACHE_MAX, d.2.timestamp ≤ a.2.timestamp := by
      have hpw : List.Pairwise (fun a b => b.2.timestamp ≤ a.2.timestamp)
          (l.take CACHE_MAX ++ [d]) := by
        rw [htd]; exact hsorted
      intro a ha
      exact (List.pairwise_append.1 hpw).2.2 a ha d (by simp)
    have hdmem : d ∈ c ++ [(k, v)] := by
      have hd' : d ∈ l.drop CACHE_MAX := by rw [hd]; simp
      exact hperm.subset (List.mem_of_mem_drop hd')
    have hdm : d = m := by
      by_contra hne
      have hmem_l : m ∈ l := hperm.mem_iff.2 (List.mem_append.2 (Or.inl hm))
      have hmem_l' : m ∈ l.take CACHE_MAX ++ [d] := by rw [htd]; exact hmem_l
      have hmtake : m ∈ l.take CACHE_MAX := by
        rcases List.mem_append.1 hmem_l' with h1 | h1
        · exact h1
        · have h1' : m = d := by simpa using h1
          exact absurd h1'.symm hne
      have hle := hcross m hmtake
      rcases List.mem_append.1 hdmem with hdc | hdv
      · exact absurd hle (Nat.not_le_of_lt (hmin d hdc hne))
      · have : d = (k, v) := by simpa using hdv
        subst this
        exact absurd hle (Nat.not_le_of_lt (by simpa using hmv))
    subst hdm
    have hnodup : l.Nodup := by
      rw [hperm.nodup_iff]
      refine List.Nodup.of_map Prod.fst ?_
      rw [List.map_append]
      rw [List.nodup_append]
      refine ⟨hkeys, by simp, ?_⟩
      intro a ha hasing
      have ha' : a = k := by simpa using hasing
      subst ha'
      obtain ⟨e, he, hefst⟩ := List.mem_map.1 ha
      exact ((lookupKey_eq_none_iff c a).1 hknew e he) hefst
    have hdnotin : d ∉ l.take CACHE_MAX := by
      have hnd : (l.take CACHE_MAX ++ [d]).Nodup := by rw [htd]; exact hnodup
      have := (List.nodup_append.1 hnd).2.2
      intro hin
      exact (List.disjoint_singleton.1 this) hin
    refine ⟨?_, ?_, ?_⟩
    · rw [hresult, List.length_take, hllen]
      simp
    · rw [hresult]
      exact hdnotin
    · intro e he hne
      rw [hresult]
      have hmem_l : e ∈ l := hperm.mem_iff.2 he
      have hmem_l' : e ∈ l.take CACHE_MAX ++ [d] := by rw [htd]; exact hmem_l
      rcases List.mem_append.1 hmem_l' with h1 | h1
      · exact h1
      · exact absurd (by simpa using h1) hne

/-- Witness for C3: a full cache of 100 fresh entries plus a new write
drops exactly the oldest entry. -/
theorem C3_eviction_bound_witness :
    (putThenEvict ((List.range 100).map
        (fun i => (Nat.repr i, CacheEntry.mk "s" (1000 + i) "t")))
        (PutOp.mk "x" (CacheEntry.mk "s" 2000 "t") 2000)).length = CACHE_MAX
    ∧ ("0", CacheEntry.mk "s" 1000 "t") ∉ putThenEvict ((List.range 100).map
        (fun i => (Nat.repr i, CacheEntry.mk "s" (1000 + i) "t")))
        (PutOp.mk "x" (CacheEntry.mk "s" 2000 "t") 2000) := by
  have h := C3_eviction_bound.2 ((List.range 100).map
      (fun i => (Nat.repr i, CacheEntry.mk "s" (1000 + i) "t")))
    "x" (CacheEntry.mk "s" 2000 "t") 2000 ("0", CacheEntry.mk "s" 1000 "t")
    (by decide) (by decide) (by decide) (by decide) (by decide) (by decide)
    (by decide) (by decide)
  exact ⟨h.1, h.2.1⟩

/-! ### Claims C5-C7: the pipeline runs

The schedule of a run is computed by the stable sort; the following lemmas
pin it down for each position of the settlement time. -/

theorem schedule_err_low (t : Nat) (m : String) (h : t < 2000) :
    schedule (.err t m)
      = [(0, .startEv), (t, .settleErr m), (2000, .timerTranscribing),
         (5000, .timerSummarizing)] := by
  have h1 : ¬ (2000:Nat) ≤ t := by omega
  simp [schedule, sortTimed, registered, insertTimed, h1]

theorem schedule_err_mid (t : Nat) (m : String) (hl : 2000 ≤ t) (hh : t < 5000) :
    schedule (.err t m)
      = [(0, .startEv), (2000, .timerTranscribing), (t, .settleErr m),
         (5000, .timerSummarizing)] := by
  have h1 : ¬ (5000:Nat) ≤ t := by omega
  simp [schedule, sortTimed, registered, insertTimed, hl, h1]

theorem schedule_err_high (t : Nat) (m : String) (h : 5000 ≤ t) :
    schedule (.err t m)
      = [(0, .startEv), (2000, .timerTranscribing), (5000, .timerSummarizing),
         (t, .settleErr m)] := by
  have h1 : (2000:Nat) ≤ t := by omega
  simp [schedule, sortTimed, registered, insertTimed, h, h1]

theorem schedule_ok_high (t : Nat) (sm : String) (h : 5000 ≤ t) :
    schedule (.ok t sm)
      = [(0, .startEv), (2000, .timerTranscribing), (5000, .timerSummarizing),
         (t, .settleOk sm), (t + 2000, .graceDelete)] := by
  have h1 : (2000:Nat) ≤ t := by omega
  have h2 : (2000:Nat) ≤ t + 2000 := by omega
  have h3 : (5000:Nat) ≤ t + 2000 := by omega
  have h4 : t ≤ t + 2000 := by omega
  simp [schedule, sortTimed, registered, insertTimed, h, h1, h2, h3, h4]

/-! Per-event facts about the task slot of the pipeline's own key. -/

theorem lookup_startEv (env : Env) (vid title : String) (s : BgState) (n : Nat) :
    lookupKey (applyEvent env vid title s (n, .startEv)).activeTasks vid
      = some (Task.mk .downloading 20 n none) := by
  simp [applyEvent, broadcastStatusUpdate, sendTabs, sendRuntime, addStatusToLog,
    lookupKey_setEntry_self]

theorem lookup_timerT (env : Env) (vid title : String) (s : BgState) (n : Nat)
    (tk : Task) (h : lookupKey s.activeTasks vid = some tk) :
    lookupKey (applyEvent env vid title s (n, .timerTranscribing)).activeTasks vid
      = some { tk with status := .transcribing, progress := 60 } := by
  simp [applyEvent, h, broadcastStatusUpdate, sendTabs, sendRuntime, addStatusToLog,
    lookupKey_setEntry_self]

theorem lookup_timerS (env : Env) (vid title : String) (s : BgState) (n : Nat)
    (tk : Task) (h : lookupKey s.activeTasks vid = some tk) :
    lookupKey (applyEvent env vid title s (n, .timerSummarizing)).activeTasks vid
      = some { tk with status := .summarizing, progress := 85 } := by
  simp [applyEvent, h, broadcastStatusUpdate, sendTabs, sendRuntime, addStatusToLog,
    lookupKey_setEntry_self]

theorem timerT_of_none (env : Env) (vid title : String) (s : BgState) (n : Nat)
    (h : lookupKey s.activeTasks vid = none) :
    applyEvent env vid title s (n, .timerTranscribing) = s := by
  simp [applyEvent, h]

theorem timerS_of_none (env : Env) (vid title : String) (s : BgState) (n : Nat)
    (h : lookupKey s.activeTasks vid = none) :
    applyEvent env vid title s (n, .timerSummarizing) = s := by
  simp [applyEvent, h]

theorem lookup_settleOk (env : Env) (vid title sm : String) (s : BgState) (n : Nat) :
    (lookupKey (applyEvent env vid title s (n, .settleOk sm)).activeTasks vid).map
        (fun tk => (tk.status, tk.summary))
      = some (.completed, some sm) := by
  simp [applyEvent, broadcastSummaryReady, sendTabs, sendRuntime, addStatusToLog,
    lookupKey_setEntry_self]

theorem lookup_settleOk_status (env : Env) (vid title sm : String) (s : BgState)
    (n : Nat) :
    (lookupKey (applyEvent env vid title s (n, .settleOk sm)).activeTasks vid).map
        Task.status
      = some .completed := by
  simp [applyEvent, broadcastSummaryReady, sendTabs, sendRuntime, addStatusToLog,
    lookupKey_setEntry_self]

theorem lookup_settleErr (env : Env) (vid title m : String) (s : BgState) (n : Nat) :
    lookupKey (applyEvent env vid title s (n, .settleErr m)).activeTasks vid = none := by
  simp [applyEvent, broadcastStatusUpdate, sendTabs, sendRuntime, addStatusToLog,
    lookupKey_eraseEntry_self]

theorem lookup_graceDelete (env : Env) (vid title : String) (s : BgState) (n : Nat) :
    lookupKey (applyEvent env vid title s (n, .graceDelete)).activeTasks vid = none := by
  simp [applyEvent, lookupKey_eraseEntry_self]

/-- Claim C5 counterexample: in the run whose fetch succeeds at 1000ms
(before the 2000ms progress timer fires), the stored task is `completed`
at time 1000 and `transcribing` — an earlier, non-terminal stage — at time
2000: the 2000ms timer's `activeTasks.has(videoId)` guard still sees the
completed task retained for the grace window and overwrites it. -/
theorem C5_counterexample :
    statusAt (Env.mk [] false (fun _ => false)) "v" "T" (.ok 1000 "S") 1000 initState
        = some .completed
    ∧ statusAt (Env.mk [] false (fun _ => false)) "v" "T" (.ok 1000 "S") 2000 initState
        = some .transcribing
    ∧ ¬ ForwardTrace (Env.mk [] false (fun _ => false)) "v" "T" (.ok 1000 "S")
        initState := by
  refine ⟨by decide, by decide, by decide⟩

/-- Claim C5 (amended): the observed task states move strictly forward
through downloading → transcribing → summarizing → completed (failure
deletes the task rather than storing a state), provided the fetch either
fails — at any time — or succeeds only after the 5-second progress timer
has fired; a fetch succeeding before the progress timers can overwrite the
completed task with an earlier stage (see the counterexample). -/
theorem C5_forward_amended (env : Env) (vid title : String) (s0 : BgState)
    (h0 : lookupKey s0.activeTasks vid = none) :
    (∀ t : Nat, ∀ m : String, ForwardTrace env vid title (.err t m) s0)
    ∧ (∀ t : Nat, ∀ sm : String, 5000 < t → ForwardTrace env vid title (.ok t sm) s0) := by
  constructor
  · intro t m
    unfold ForwardTrace statusTrace
    rcases Nat.lt_or_ge t 2000 with h | h
    · rw [schedule_err_low t m h]
      simp only [List.scanl]
      simp [lookup_startEv, lookup_settleErr, timerT_of_none, timerS_of_none, h0,
        List.pairwise_cons, forwardStep, rank]
    · rcases Nat.lt_or_ge t 5000 with h' | h'
      · rw [schedule_err_mid t m h h']
        simp only [List.scanl]
        simp [lookup_startEv, lookup_timerT, lookup_settleErr, timerS_of_none, h0,
          List.pairwise_cons, forwardStep, rank]
      · rw [schedule_err_high t m h']
        simp only [List.scanl]
        simp [lookup_startEv, lookup_timerT, lookup_timerS, lookup_settleErr, h0,
          List.pairwise_cons, forwardStep, rank]
  · intro t sm ht
    unfold ForwardTrace statusTrace
    rw [schedule_ok_high t sm (by omega)]
    simp only [List.scanl]
    simp [lookup_startEv, lookup_timerT, lookup_timerS, lookup_settleOk_status,
      lookup_graceDelete, h0, List.pairwise_cons, forwardStep, rank]

/-- Witness for C5 (amended): the failure run settling at 1234ms and the
success run settling at 6000ms, from the fresh state, both observe only
forward transitions. -/
theorem C5_forward_amended_witness :
    ForwardTrace (Env.mk [] false (fun _ => false)) "v" "T" (.err 1234 "boom") initState
    ∧ ForwardTrace (Env.mk [] false (fun _ => false)) "v" "T" (.ok 6000 "S") initState := by
  have h := C5_forward_amended (Env.mk [] false (fun _ => false)) "v" "T" initState
    (by decide)
  exact ⟨h.1 1234 "boom", h.2 6000 "S" (by decide)⟩

/-- Claim C6 counterexample: with the fetch succeeding at 1500ms, the task
is completed at 1500ms and its removal is scheduled for 3500ms, yet a poll
at 2000ms — inside that grace window — sees `transcribing`, not
`completed`: the pending progress timer overwrote the completed task. -/
theorem C6_counterexample :
    statusAt (Env.mk [] false (fun _ => false)) "v" "T" (.ok 1500 "S") 1500 initState
        = some .completed
    ∧ statusAt (Env.mk [] false (fun _ => false)) "v" "T" (.ok 1500 "S") 2000 initState
        = some .transcribing :=
  ⟨by decide, by decide⟩

/-- Claim C6 (amended): when the fetch succeeds after the 5-second
progress timer, the task is marked completed with the summary attached and
stays in the registry for the whole 2-second grace window, disappearing
only from `t + 2000` on; on failure the task is removed immediately — it
is absent at every time from the failure on, with no grace period.  (For a
fetch succeeding before the progress timers the window can instead show a
non-terminal status, see the counterexample.) -/
theorem C6_grace_window_amended (env : Env) (vid title : String) (s0 : BgState) :
    (∀ t u : Nat, ∀ sm : String, 5000 < t → t ≤ u → u < t + 2000 →
        (lookupKey (runTo env vid title (.ok t sm) u s0).activeTasks vid).map
            (fun tk => (tk.status, tk.summary)) = some (.completed, some sm))
    ∧ (∀ t u : Nat, ∀ sm : String, 5000 < t → t + 2000 ≤ u →
        lookupKey (runTo env vid title (.ok t sm) u s0).activeTasks vid = none)
    ∧ (∀ t u : Nat, ∀ m : String, t ≤ u →
        lookupKey (runTo env vid title (.err t m) u s0).activeTasks vid = none) := by
  refine ⟨?_, ?_, ?_⟩
  · intro t u sm ht h1 h2
    unfold runTo
    rw [schedule_ok_high t sm (by omega)]
    have f2 : (2000:Nat) ≤ u := by omega
    have f3 : (5000:Nat) ≤ u := by omega
    have f5 : ¬ (t + 2000 ≤ u) := by omega
    simp only [List.filter_cons, List.filter_nil, decide_eq_true_eq, f2, f3, h1, f5,
      Nat.zero_le, if_true, if_false, ite_true, ite_false, List.foldl_cons,
      List.foldl_nil]
    simp [f2, f3, h1, f5, lookup_settleOk]
  · intro t u sm ht h1
    unfold runTo
    rw [schedule_ok_high t sm (by omega)]
    have f2 : (2000:Nat) ≤ u := by omega
    have f3 : (5000:Nat) ≤ u := by omega
    have f4 : t ≤ u := by omega
    simp [f2, f3, f4, h1, lookup_graceDelete]
  · intro t u m htu
    rcases Nat.lt_or_ge t 2000 with h | h
    · unfold runTo
      rw [schedule_err_low t m h]
      by_cases c2 : (2000:Nat) ≤ u <;> by_cases c5 : (5000:Nat) ≤ u <;>
        simp [htu, c2, c5, lookup_settleErr, timerT_of_none, timerS_of_none]
    · rcases Nat.lt_or_ge t 5000 with h' | h'
      · unfold runTo
        rw [schedule_err_mid t m h h']
        have c2 : (2000:Nat) ≤ u := by omega
        by_cases c5 : (5000:Nat) ≤ u <;>
          simp [htu, c2, c5, lookup_settleErr, timerS_of_none]
      · unfold runTo
        rw [schedule_err_high t m h']
        have c2 : (2000:Nat) ≤ u := by omega
        have c5 : (5000:Nat) ≤ u := by omega
        simp [htu, c2, c5, lookup_settleErr]

/-- Witness for C6 (amended): concrete polls of the run settling at 6000ms
— inside the window at 7000ms, after it at 8000ms — and of a failure run. -/
theorem C6_grace_window_amended_witness :
    (lookupKey (runTo (Env.mk [] false (fun _ => false)) "v" "T" (.ok 6000 "S") 7000
        initState).activeTasks "v").map (fun tk => (tk.status, tk.summary))
      = some (.completed, some "S")
    ∧ lookupKey (runTo (Env.mk [] false (fun _ => false)) "v" "T" (.ok 6000 "S") 8000
        initState).activeTasks "v" = none
    ∧ lookupKey (runTo (Env.mk [] false (fun _ => false)) "v" "T" (.err 1234 "boom") 1234
        initState).activeTasks "v" = none := by
  have h := C6_grace_window_amended (Env.mk [] false (fun _ => false)) "v" "T" initState
  exact ⟨h.1 6000 7000 "S" (by decide) (by decide) (by decide),
         h.2.1 6000 8000 "S" (by decide) (by decide),
         h.2.2 1234 1234 "boom" (by decide)⟩

/-! ### Claim C7: failed runs leave no cache entry -/

theorem mem_insertTimed (a e : Nat × PEvent) (l : List (Nat × PEvent)) :
    a ∈ insertTimed e l ↔ a = e ∨ a ∈ l := by
  induction l with
  | nil => simp [insertTimed]
  | cons x xs ih =>
      unfold insertTimed
      split_ifs <;> simp [ih] <;> tauto

theorem mem_sortTimed (a : Nat × PEvent) (l : List (Nat × PEvent)) :
    a ∈ sortTimed l ↔ a ∈ l := by
  suffices h : ∀ acc : List (Nat × PEvent),
      (a ∈ l.foldl (fun acc e => insertTimed e acc) acc ↔ a ∈ acc ∨ a ∈ l) by
    simpa [sortTimed] using h []
  induction l with
  | nil => intro acc; simp
  | cons e es ih =>
      intro acc
      rw [List.foldl_cons, ih (insertTimed e acc)]
      simp [mem_insertTimed]
      tauto

theorem cache_applyEvent (env : Env) (vid title : String) (s : BgState)
    (te : Nat × PEvent) (h : ∀ sm, te.2 ≠ .settleOk sm) :
    (applyEvent env vid title s te).summaryCache = s.summaryCache := by
  obtain ⟨n, e⟩ := te
  simp only at h
  cases e with
  | startEv =>
      simp [applyEvent, broadcastStatusUpdate, sendTabs, sendRuntime, addStatusToLog]
  | timerTranscribing =>
      cases hl : lookupKey s.activeTasks vid <;>
        simp [applyEvent, hl, broadcastStatusUpdate, sendTabs, sendRuntime,
          addStatusToLog]
  | timerSummarizing =>
      cases hl : lookupKey s.activeTasks vid <;>
        simp [applyEvent, hl, broadcastStatusUpdate, sendTabs, sendRuntime,
          addStatusToLog]
  | settleOk sm => exact absurd rfl (h sm)
  | settleErr m =>
      simp [applyEvent, broadcastStatusUpdate, sendTabs, sendRuntime, addStatusToLog]
  | graceDelete => simp [applyEvent]

theorem cache_foldl (env : Env) (vid title : String) (l : List (Nat × PEvent))
    (hl : ∀ te ∈ l, ∀ sm, te.2 ≠ PEvent.settleOk sm) :
    ∀ s : BgState, (l.foldl (applyEvent env vid title) s).summaryCache = s.summaryCache := by
  induction l with
  | nil => intro s; rfl
  | cons e es ih =>
      intro s
      rw [List.foldl_cons, ih (fun te hte => hl te (List.mem_cons_of_mem e hte)),
        cache_applyEvent env vid title s e (hl e (List.mem_cons_self e es))]

theorem mem_appendLog_self (l : List LogEntry) (e : LogEntry) : e ∈ appendLog l e := by
  rw [appendLog_eq_drop]
  have hk : l.length + 1 - LOG_CAP ≤ l.length := by
    simp only [LOG_CAP]; omega
  rw [List.drop_append_of_le_length hk]
  simp

theorem settleErr_log (env : Env) (vid title m : String) (s : BgState) (n : Nat) :
    LogEntry.mk ("❌ " ++ classifyError m) n
      ∈ logFor (applyEvent env vid title s (n, .settleErr m)) vid := by
  simp [applyEvent, broadcastStatusUpdate, sendTabs, sendRuntime, addStatusToLog,
    logFor, lookupKey_setEntry_self, mem_appendLog_self]

theorem settleErr_runtimeSent (env : Env) (vid title m : String) (s : BgState) (n : Nat) :
    BCast.statusUpdate vid ("❌ " ++ classifyError m)
      ∈ (applyEvent env vid title s (n, .settleErr m)).runtimeSent := by
  simp [applyEvent, broadcastStatusUpdate, sendTabs, sendRuntime, addStatusToLog]

/-- Claim C7: a pipeline run whose fetch fails — at any time, hence at any
stage — writes no cache entry (the cache map is exactly what it was) and
deletes the task, so a subsequent submission for the key is neither served
from cache nor rejected as a duplicate but starts a fresh pipeline; the
failure is classified into a human-readable message that is appended to
the status log and attempted on the broadcast channel. -/
theorem C7_failure_no_cache (env : Env) (vid title m : String) (t now2 : Nat)
    (s0 : BgState) (hvid : vid ≠ "") (hc0 : lookupKey s0.summaryCache vid = none) :
    lookupKey (runAll env vid title (.err t m) s0).activeTasks vid = none
    ∧ (runAll env vid title (.err t m) s0).summaryCache = s0.summaryCache
    ∧ LogEntry.mk ("❌ " ++ classifyError m) t
        ∈ logFor (runAll env vid title (.err t m) s0) vid
    ∧ BCast.statusUpdate vid ("❌ " ++ classifyError m)
        ∈ (runAll env vid title (.err t m) s0).runtimeSent
    ∧ (handleVideoSummarization env now2 (some (VideoInfo.mk (some vid) title))
        (runAll env vid title (.err t m) s0)).1 = startedResponse := by
  have hnotok : ∀ te ∈ schedule (.err t m), ∀ sm, te.2 ≠ PEvent.settleOk sm := by
    intro te hte sm
    have hmem : te ∈ registered (.err t m) := (mem_sortTimed te _).1 hte
    simp only [registered, List.mem_cons, List.mem_singleton] at hmem
    rcases hmem with rfl | rfl | rfl | rfl | h <;> simp_all
  have hcache : (runAll env vid title (.err t m) s0).summaryCache = s0.summaryCache :=
    cache_foldl env vid title _ hnotok s0
  have hmain : lookupKey (runAll env vid title (.err t m) s0).activeTasks vid = none
      ∧ LogEntry.mk ("❌ " ++ classifyError m) t
          ∈ logFor (runAll env vid title (.err t m) s0) vid
      ∧ BCast.statusUpdate vid ("❌ " ++ classifyError m)
          ∈ (runAll env vid title (.err t m) s0).runtimeSent := by
    unfold runAll
    rcases Nat.lt_or_ge t 2000 with h | h
    · rw [schedule_err_low t m h]
      simp only [List.foldl_cons, List.foldl_nil]
      refine ⟨?_, ?_, ?_⟩ <;>
        simp [timerT_of_none, timerS_of_none, lookup_settleErr, settleErr_log,
          settleErr_runtimeSent]
    · rcases Nat.lt_or_ge t 5000 with h' | h'
      · rw [schedule_err_mid t m h h']
        simp only [List.foldl_cons, List.foldl_nil]
        refine ⟨?_, ?_, ?_⟩ <;>
          simp [timerS_of_none, lookup_settleErr, settleErr_log, settleErr_runtimeSent]
      · rw [schedule_err_high t m h']
        simp only [List.foldl_cons, List.foldl_nil]
        exact ⟨lookup_settleErr _ _ _ _ _ _, settleErr_log _ _ _ _ _ _,
          settleErr_runtimeSent _ _ _ _ _ _⟩
  have hcfin : lookupKey (runAll env vid title (.err t m) s0).summaryCache vid = none := by
    rw [hcache]; exact hc0
  exact ⟨hmain.1, hcache, hmain.2.1, hmain.2.2, by
    simp [handleVideoSummarization, hvid, hcfin, hmain.1]⟩

/-- Witness for C7: the failure run settling at 1234ms from the fresh
state, with a resubmission at time 9999. -/
theorem C7_failure_no_cache_witness :
    lookupKey (runAll (Env.mk [] false (fun _ => false)) "v" "T" (.err 1234 "boom")
        initState).activeTasks "v" = none
    ∧ (runAll (Env.mk [] false (fun _ => false)) "v" "T" (.err 1234 "boom")
        initState).summaryCache = initState.summaryCache
    ∧ (handleVideoSummarization (Env.mk [] false (fun _ => false)) 9999
        (some (VideoInfo.mk (some "v") "T"))
        (runAll (Env.mk [] false (fun _ => false)) "v" "T" (.err 1234 "boom")
          initState)).1 = startedResponse := by
  have h := C7_failure_no_cache (Env.mk [] false (fun _ => false)) "v" "T" "boom"
    1234 9999 initState (by decide) (by decide)
  exact ⟨h.1, h.2.1, h.2.2.2.2⟩

end YTS
